import Mathlib

/-!
Verification development for the Identra memory-service repository.

The repository ships a single Python file, `examples/memory_client.py`: a
gRPC client for a remote memory service (StoreMemory / SearchMemories /
GetRecentMemories).  The client code is embedded directly below (section
"Client embedding").  The memory-service core itself is not part of the
repository's sources; the components it must contain (VaultStore,
VectorIndex, MetadataCatalog, RecencyLedger, MemoryService) are modelled
from the specification's contracts, with doc comments marking each
spec-modelled definition.

Numbers: embedding coordinates, similarity scores and thresholds are
modelled as rationals (ℚ); timestamps as naturals; record identifiers in
the service model as naturals (the spec treats ids as opaque).
-/

namespace Identra

/-- Modelled from the spec: error taxonomy of §7 (`InvalidInput`,
`NotFound`, `VaultCorrupt`, `DurabilityFailure`, `Internal`). -/
inductive MemErr where
  | InvalidInput
  | NotFound
  | VaultCorrupt
  | DurabilityFailure
  | Internal
  deriving DecidableEq, Repr

/-- Modelled from the spec: the memory record of §3 — id (opaque, here ℕ),
content, fixed-dimension embedding, string→string metadata, tag set
(as a list), and a service-assigned `created_at` timestamp. -/
structure Record where
  id : Nat
  content : String
  embedding : List ℚ
  metadata : List (String × String)
  tags : List String
  created_at : Nat
  deriving DecidableEq, Repr

/-- Modelled from the spec (§4.1): VaultStore, key→record storage.
Encryption is transparent to callers, so the model stores records in the
clear; `put`/`get`/`get_many` follow the stated contract. -/
structure VaultStore where
  entries : List (Nat × Record)
  deriving DecidableEq, Repr

def VaultStore.put (v : VaultStore) (id : Nat) (r : Record) : VaultStore :=
  ⟨(id, r) :: v.entries⟩

def VaultStore.get (v : VaultStore) (id : Nat) : Option Record :=
  (v.entries.find? (fun e => e.1 == id)).map Prod.snd

/-- Modelled from the spec (§4.1): batch read, missing ids silently
omitted, never an error. -/
def VaultStore.get_many (v : VaultStore) (ids : List Nat) : List (Nat × Record) :=
  ids.filterMap (fun id => (v.get id).map (fun r => (id, r)))

/-- Modelled from the spec (§3, §4.2): a VectorIndex entry holds only the
identifier plus the data the index needs for ordering — embedding and
timestamp. -/
structure IndexEntry where
  id : Nat
  embedding : List ℚ
  created_at : Nat
  deriving DecidableEq, Repr

/-- Modelled from the spec (§4.2): VectorIndex; `dim` is the service-wide
embedding dimension, fixed at construction (§9). -/
structure VectorIndex where
  dim : Nat
  entries : List IndexEntry
  deriving DecidableEq, Repr

def VectorIndex.insert (idx : VectorIndex) (id : Nat) (emb : List ℚ) (created : Nat) :
    VectorIndex :=
  ⟨idx.dim, ⟨id, emb, created⟩ :: idx.entries⟩

/-- A search hit: record identifier, similarity score, and the record's
creation timestamp (the tie-break key mandated by §4.2). -/
structure SearchHit where
  id : Nat
  score : ℚ
  created_at : Nat
  deriving DecidableEq, Repr

/-- The §4.2 result ordering: higher score first, ties broken by earlier
`created_at`. -/
def HitOrder (a b : SearchHit) : Prop :=
  b.score < a.score ∨ (a.score = b.score ∧ a.created_at ≤ b.created_at)

instance : DecidableRel HitOrder := fun a b => by
  unfold HitOrder
  exact inferInstance

instance : IsTotal SearchHit HitOrder := by
  constructor
  intro a b
  rcases lt_trichotomy a.score b.score with h | h | h
  · exact Or.inr (Or.inl h)
  · rcases Nat.le_total a.created_at b.created_at with h2 | h2
    · exact Or.inl (Or.inr ⟨h, h2⟩)
    · exact Or.inr (Or.inr ⟨h.symm, h2⟩)
  · exact Or.inl (Or.inl h)

instance : IsTrans SearchHit HitOrder := by
  constructor
  intro a b c hab hbc
  rcases hab with h1 | ⟨h1, h2⟩ <;> rcases hbc with h3 | ⟨h3, h4⟩
  · exact Or.inl (h3.trans h1)
  · exact Or.inl (lt_of_eq_of_lt h3.symm h1)
  · exact Or.inl (lt_of_lt_of_eq h3 h1.symm)
  · exact Or.inr ⟨h1.trans h3, h2.trans h4⟩

/-- Modelled from the spec (§4.2): `search(query, limit, threshold)`.
`limit <= 0` and a query dimension mismatch are input errors; otherwise
every candidate is scored, candidates with `score >= threshold` are kept,
sorted highest score first with ties broken by earliest `created_at`, and
at most `limit` are returned.  The underlying similarity function (cosine
similarity per the spec) is abstracted as the parameter `sim`: §4.2
mandates the contract (ordering, threshold, limit) regardless of the
scoring/search strategy. -/
def VectorIndex.search (idx : VectorIndex) (sim : List ℚ → List ℚ → ℚ)
    (q : List ℚ) (limit : Int) (threshold : ℚ) : Except MemErr (List SearchHit) :=
  if limit ≤ 0 then .error .InvalidInput
  else if q.length ≠ idx.dim then .error .InvalidInput
  else
    let scored := idx.entries.map (fun e => SearchHit.mk e.id (sim q e.embedding) e.created_at)
    let kept := scored.filter (fun h => decide (threshold ≤ h.score))
    .ok ((List.insertionSort HitOrder kept).take limit.toNat)

/-- Modelled from the spec (§4.3): a MetadataCatalog entry — identifier
with its metadata and tags. -/
structure CatalogEntry where
  id : Nat
  metadata : List (String × String)
  tags : List String
  deriving DecidableEq, Repr

/-- Modelled from the spec (§4.3): MetadataCatalog. -/
structure MetadataCatalog where
  entries : List CatalogEntry
  deriving DecidableEq, Repr

def MetadataCatalog.index (c : MetadataCatalog) (id : Nat)
    (md : List (String × String)) (tags : List String) : MetadataCatalog :=
  ⟨⟨id, md, tags⟩ :: c.entries⟩

/-- Metadata lookup: first value bound to a key, if any. -/
def lookupMeta (md : List (String × String)) (k : String) : Option String :=
  (md.find? (fun e => e.1 == k)).map Prod.snd

/-- Modelled from the spec (§4.3): a record (given by its metadata and
tags) matches the filters iff every filter key is present in the metadata
with an equal value; the reserved key `"tag"` instead requires the value
to be a member of the record's tag set. -/
def matchesRecord (md : List (String × String)) (tags : List String)
    (filters : List (String × String)) : Bool :=
  filters.all (fun f =>
    if f.1 == "tag" then tags.contains f.2 else lookupMeta md f.1 == some f.2)

/-- Modelled from the spec (§4.3): `matches(id, filters)` — pure
predicate; an id absent from the catalog matches only the empty filter
set. -/
def MetadataCatalog.matches (c : MetadataCatalog) (id : Nat)
    (filters : List (String × String)) : Bool :=
  match c.entries.find? (fun e => e.id == id) with
  | none => filters.isEmpty
  | some e => matchesRecord e.metadata e.tags filters

/-- Modelled from the spec (§4.4): RecencyLedger — append-only list of
(id, created_at). -/
structure RecencyLedger where
  entries : List (Nat × Nat)
  deriving DecidableEq, Repr

def RecencyLedger.append (l : RecencyLedger) (id : Nat) (created : Nat) : RecencyLedger :=
  ⟨(id, created) :: l.entries⟩

/-- Most-recent-first ordering on ledger entries (id, created_at). -/
def RecOrder (a b : Nat × Nat) : Prop := b.2 ≤ a.2

instance : DecidableRel RecOrder := fun a b => by
  unfold RecOrder
  exact inferInstance

instance : IsTotal (Nat × Nat) RecOrder := by
  constructor
  intro a b
  exact (Nat.le_total b.2 a.2).imp id id

instance : IsTrans (Nat × Nat) RecOrder := by
  constructor
  intro a b c hab hbc
  exact hbc.trans hab

/-- Modelled from the spec (§4.4): `recent(limit)` with the full (id,
created_at) pairs; `limit <= 0` is an input error, otherwise at most
`limit` entries in non-increasing `created_at` order. -/
def RecencyLedger.recentEntries (l : RecencyLedger) (limit : Int) :
    Except MemErr (List (Nat × Nat)) :=
  if limit ≤ 0 then .error .InvalidInput
  else .ok ((List.insertionSort RecOrder l.entries).take limit.toNat)

/-- Modelled from the spec (§4.4): `recent(limit) -> ordered sequence of
id`, most recent first. -/
def RecencyLedger.recent (l : RecencyLedger) (limit : Int) : Except MemErr (List Nat) :=
  (l.recentEntries limit).map (fun es => es.map Prod.fst)

/-- Modelled from the spec (§4.5, §5): the whole service state — the
four structures, the configured dimension, the id allocator, the
monotonic clock, and the set of ids whose VaultStore write has committed
but whose derived-index updates are still pending (the §5 mid-store
window). -/
structure ServiceState where
  dim : Nat
  nextId : Nat
  clock : Nat
  vault : VaultStore
  vindex : VectorIndex
  catalog : MetadataCatalog
  ledger : RecencyLedger
  pending : List Nat
  deriving DecidableEq, Repr

/-- Modelled from the spec (§6): the caller-supplied part of a
StoreMemory request (id and created_at are assigned by the service). -/
structure StoreReq where
  content : String
  embedding : List ℚ
  metadata : List (String × String)
  tags : List String
  deriving DecidableEq, Repr

/-- Modelled from the spec (§9): a freshly constructed service with
configured dimension `d` and all four structures empty. -/
def initState (d : Nat) : ServiceState :=
  ⟨d, 0, 0, ⟨[]⟩, ⟨d, []⟩, ⟨[]⟩, ⟨[]⟩, []⟩

/-- Modelled from the spec (§4.5, §5): phase one of a store — allocate a
fresh id and timestamp and commit the record to VaultStore; the id
becomes pending until the derived indexes are updated. -/
def commitVault (s : ServiceState) (req : StoreReq) : Nat × ServiceState :=
  let id := s.nextId
  let r : Record := ⟨id, req.content, req.embedding, req.metadata, req.tags, s.clock⟩
  (id, { s with
           nextId := s.nextId + 1
           clock := s.clock + 1
           vault := s.vault.put id r
           pending := id :: s.pending })

/-- Modelled from the spec (§4.5, §5): phase two of a store — copy the
vault record's data into VectorIndex, MetadataCatalog and RecencyLedger
and clear the pending mark.  VaultStore is committed before the derived
indexes, exactly as §5 requires. -/
def commitIndexes (s : ServiceState) (id : Nat) : ServiceState :=
  match s.vault.get id with
  | none => s
  | some r =>
      { s with
          vindex := s.vindex.insert id r.embedding r.created_at
          catalog := s.catalog.index id r.metadata r.tags
          ledger := s.ledger.append id r.created_at
          pending := s.pending.filter (fun p => p != id) }

/-- Modelled from the spec (§4.5): StoreMemory — validate the embedding
dimension before any mutation (wrong dimension is `InvalidInput` with the
state returned untouched), then commit VaultStore followed by the derived
indexes, and return the allocated id. -/
def storeMemory (s : ServiceState) (req : StoreReq) : Except MemErr Nat × ServiceState :=
  if req.embedding.length ≠ s.dim then (.error .InvalidInput, s)
  else
    let p := commitVault s req
    (.ok p.1, commitIndexes p.2 p.1)

/-- Modelled from the spec (§4.1, §7): direct lookup; an unknown id is
`NotFound`. -/
def getMemory (s : ServiceState) (id : Nat) : Except MemErr Record :=
  match s.vault.get id with
  | some r => .ok r
  | none => .error .NotFound

/-- Modelled from the spec (§4.5): SearchMemories — validate parameters
(an out-of-range threshold is an input error), run VectorIndex.search,
post-filter the candidates through MetadataCatalog.matches, hydrate the
survivors from VaultStore, and assemble the response preserving the
VectorIndex ordering. -/
def searchMemories (s : ServiceState) (sim : List ℚ → List ℚ → ℚ)
    (q : List ℚ) (limit : Int) (threshold : ℚ) (filters : List (String × String)) :
    Except MemErr (List (Record × ℚ)) :=
  if threshold < -1 ∨ 1 < threshold then .error .InvalidInput
  else
    match s.vindex.search sim q limit threshold with
    | .error e => .error e
    | .ok hits =>
        let surviving := hits.filter (fun h => s.catalog.matches h.id filters)
        .ok (surviving.filterMap (fun h => (s.vault.get h.id).map (fun r => (r, h.score))))

/-- Modelled from the spec (§5): one observable scheduling step of the
service under concurrent stores.  A store is two steps — the VaultStore
commit (`store1`, only for requests that passed dimension validation) and
the later derived-index commit (`store2`); reads do not mutate state, so
an interleaved Search/GetRecent simply observes any reachable state. -/
inductive Step : ServiceState → ServiceState → Prop where
  | store1 (s : ServiceState) (req : StoreReq)
      (h : req.embedding.length = s.dim) : Step s (commitVault s req).2
  | store2 (s : ServiceState) (id : Nat)
      (h : id ∈ s.pending) : Step s (commitIndexes s id)

/-- States reachable from a freshly constructed service with dimension
`d` under any interleaving of store phases. -/
def Reachable (d : Nat) (s : ServiceState) : Prop :=
  Relation.ReflTransGen Step (initState d) s

/-- The cross-structure consistency invariant of §5: every id present in
the VectorIndex, the RecencyLedger or the MetadataCatalog is retrievable
from VaultStore (catalog entries moreover agree with the vault record's
metadata and tags), and every vault id is below the allocator, so fresh
ids never collide. -/
def Inv (s : ServiceState) : Prop :=
  (∀ e ∈ s.vault.entries, e.1 < s.nextId) ∧
  (∀ e ∈ s.vindex.entries, ∃ r, s.vault.get e.id = some r) ∧
  (∀ p ∈ s.ledger.entries, ∃ r, s.vault.get p.1 = some r) ∧
  (∀ e ∈ s.catalog.entries, ∃ r, s.vault.get e.id = some r ∧
      r.metadata = e.metadata ∧ r.tags = e.tags)

/-!
## Client embedding

Shallow embedding of `examples/memory_client.py`.  The gRPC stub is
modelled as a function from the request message to an outcome: either a
response message or a raised `grpc.RpcError` (carrying code and details).
Printing is side-effect only and is not part of the returned values.
-/

/-- Outcome of a stub call: a response, or a raised `grpc.RpcError`. -/
inductive RpcOutcome (α : Type) where
  | ok (resp : α)
  | rpcError (code : String) (details : String)
  deriving DecidableEq, Repr

/-- Wire shape of a memory record as the client reads it
(`match.memory` / `memory` fields in `memory_client.py`). -/
structure WireRecord where
  id : String
  content : String
  metadata : List (String × String)
  tags : List String
  created_at : Nat
  deriving DecidableEq, Repr

/-- `memory_pb2.StoreMemoryRequest` as built in `store_conversation`. -/
structure StoreMemoryRequest where
  content : String
  metadata : List (String × String)
  tags : List String
  deriving DecidableEq, Repr

/-- `StoreMemoryResponse` fields read by the client. -/
structure StoreMemoryResponse where
  success : Bool
  memory_id : String
  message : String
  deriving DecidableEq, Repr

/-- `memory_pb2.SearchMemoriesRequest` as built in
`search_conversations`. -/
structure SearchMemoriesRequest where
  query_embedding : List ℚ
  limit : Int
  similarity_threshold : ℚ
  filters : List (String × String)
  deriving DecidableEq, Repr

/-- One element of `response.matches`. -/
structure SearchMatch where
  memory : WireRecord
  similarity_score : ℚ
  deriving DecidableEq, Repr

/-- `SearchMemoriesResponse` fields read by the client; the wire field is
called `matches`, a reserved word here, hence `matchList`. -/
structure SearchMemoriesResponse where
  matchList : List SearchMatch
  deriving DecidableEq, Repr

/-- `memory_pb2.GetRecentMemoriesRequest`. -/
structure GetRecentMemoriesRequest where
  limit : Int
  deriving DecidableEq, Repr

/-- `GetRecentMemoriesResponse` fields read by the client. -/
structure GetRecentMemoriesResponse where
  memories : List WireRecord
  deriving DecidableEq, Repr

/-- Python `metadata or {}`: `None` and the empty dict are both falsy and
yield the empty dict; any non-empty dict passes through. -/
def orEmptyMap (m : Option (List (String × String))) : List (String × String) :=
  match m with
  | none => []
  | some l => if l.isEmpty then [] else l

/-- Python `tags or []`: `None` and the empty list are both falsy and
yield the empty list; any non-empty list passes through. -/
def orEmptyList (t : Option (List String)) : List String :=
  match t with
  | none => []
  | some l => if l.isEmpty then [] else l

/-- The `StoreMemoryRequest(...)` constructed in
`MemoryClient.store_conversation` (lines 54-58). -/
def buildStoreRequest (content : String) (metadata : Option (List (String × String)))
    (tags : Option (List String)) : StoreMemoryRequest :=
  ⟨content, orEmptyMap metadata, orEmptyList tags⟩

/-- `MemoryClient.store_conversation` (lines 37-70): build the request,
call the stub; on a successful response return `memory_id`, on
`success == False` return `None`, on a raised `grpc.RpcError` return
`None`. -/
def store_conversation (stub : StoreMemoryRequest → RpcOutcome StoreMemoryResponse)
    (content : String) (metadata : Option (List (String × String)))
    (tags : Option (List String)) : Option String :=
  match stub (buildStoreRequest content metadata tags) with
  | .ok resp => if resp.success then some resp.memory_id else none
  | .rpcError _ _ => none

/-- The dict the client builds for each search match (lines 102-109). -/
structure SearchEntry where
  id : String
  content : String
  similarity : ℚ
  metadata : List (String × String)
  tags : List String
  created_at : Nat
  deriving DecidableEq, Repr

/-- `MemoryClient.search_conversations` (lines 72-114): build the
request, call the stub; on success map each match to a result dict, on a
raised `grpc.RpcError` return the empty list. -/
def search_conversations (stub : SearchMemoriesRequest → RpcOutcome SearchMemoriesResponse)
    (query_embedding : List ℚ) (limit : Int) (similarity_threshold : ℚ)
    (filters : Option (List (String × String))) : List SearchEntry :=
  let request : SearchMemoriesRequest :=
    ⟨query_embedding, limit, similarity_threshold, orEmptyMap filters⟩
  match stub request with
  | .ok resp =>
      resp.matchList.map (fun m =>
        ⟨m.memory.id, m.memory.content, m.similarity_score,
          m.memory.metadata, m.memory.tags, m.memory.created_at⟩)
  | .rpcError _ _ => []

/-- The dict the client builds for each recent memory (lines 132-138). -/
structure RecentEntry where
  id : String
  content : String
  metadata : List (String × String)
  tags : List String
  created_at : Nat
  deriving DecidableEq, Repr

/-- `MemoryClient.get_recent_conversations` (lines 116-143): build the
request, call the stub; on success map each memory to a result dict, on a
raised `grpc.RpcError` return the empty list. -/
def get_recent_conversations
    (stub : GetRecentMemoriesRequest → RpcOutcome GetRecentMemoriesResponse)
    (limit : Int) : List RecentEntry :=
  match stub ⟨limit⟩ with
  | .ok resp =>
      resp.memories.map (fun m =>
        ⟨m.id, m.content, m.metadata, m.tags, m.created_at⟩)
  | .rpcError _ _ => []

instance {ε α : Type} [DecidableEq ε] [DecidableEq α] : DecidableEq (Except ε α) :=
  fun x y =>
    match x, y with
    | .ok a, .ok b =>
        if h : a = b then .isTrue (congrArg Except.ok h)
        else .isFalse (fun hc => h (Except.ok.inj hc))
    | .error e, .error f =>
        if h : e = f then .isTrue (congrArg Except.error h)
        else .isFalse (fun hc => h (Except.error.inj hc))
    | .ok _, .error _ => .isFalse (fun hc => Except.noConfusion hc)
    | .error _, .ok _ => .isFalse (fun hc => Except.noConfusion hc)

/-!
## Concrete instances

Closed sample data used to instantiate the theorems below on concrete
inputs.
-/

/-- A concrete similarity function for sample runs: 1 on an exact match,
0 otherwise (any scoring strategy satisfies the §4.2 contract). -/
def exSim : List ℚ → List ℚ → ℚ := fun q e => if q = e then 1 else 0

/-- A concrete two-dimensional index with two entries. -/
def exIdx : VectorIndex := ⟨2, [⟨0, [1, 0], 0⟩, ⟨1, [0, 1], 1⟩]⟩

/-- A concrete well-formed store request for a dimension-2 service. -/
def exReq : StoreReq := ⟨"hello", [1, 0], [("user_id", "u1")], ["chat"]⟩

/-- A three-dimensional store request, malformed for a dimension-4
service (spec scenario C). -/
def exReq3 : StoreReq := ⟨"bad", [1, 0, 0], [], []⟩

/-- The state after the VaultStore phase of storing `exReq` on a fresh
dimension-2 service. -/
def exS1 : ServiceState := (commitVault (initState 2) exReq).2

/-- The state after the derived-index phase completes. -/
def exS2 : ServiceState := commitIndexes exS1 0

/-- A concrete ledger with three entries at increasing timestamps (spec
scenario D). -/
def exLed : RecencyLedger := ⟨[(0, 0), (1, 1), (2, 2)]⟩

/-- The record produced by storing `exReq` on a fresh dimension-2
service. -/
def exRec : Record := ⟨0, "hello", [1, 0], [("user_id", "u1")], ["chat"], 0⟩

/-- Embedding dimension of a record. -/
def embeddingDim (r : Record) : Nat := r.embedding.length

/-- A search stub that always raises a gRPC error. -/
def exStubSearchErr : SearchMemoriesRequest → RpcOutcome SearchMemoriesResponse :=
  fun _ => .rpcError "UNAVAILABLE" "connection refused"

/-- A recent-memories stub that always raises a gRPC error. -/
def exStubRecentErr : GetRecentMemoriesRequest → RpcOutcome GetRecentMemoriesResponse :=
  fun _ => .rpcError "UNAVAILABLE" "connection refused"

/-- A store stub answering with a successful response. -/
def exStubStoreOk : StoreMemoryRequest → RpcOutcome StoreMemoryResponse :=
  fun _ => .ok ⟨true, "id-1", "stored"⟩

/-- A store stub answering with `success == False`. -/
def exStubStoreFail : StoreMemoryRequest → RpcOutcome StoreMemoryResponse :=
  fun _ => .ok ⟨false, "", "vault unavailable"⟩

/-- A store stub that raises a gRPC error. -/
def exStubStoreRaise : StoreMemoryRequest → RpcOutcome StoreMemoryResponse :=
  fun _ => .rpcError "INTERNAL" "boom"

/-!
## Helper lemmas
-/

theorem VaultStore.get_put_self (v : VaultStore) (id : Nat) (r : Record) :
    (v.put id r).get id = some r := by
  simp [VaultStore.get, VaultStore.put, List.find?]

theorem VaultStore.get_put_ne (v : VaultStore) (id nid : Nat) (r : Record)
    (h : id ≠ nid) : (v.put nid r).get id = v.get id := by
  have hb : ((nid, r).1 == id) = false := by
    simp
    omega
  simp [VaultStore.get, VaultStore.put, List.find?, hb]

theorem VaultStore.get_some_lt (v : VaultStore) (n id : Nat) (r : Record)
    (hf : ∀ e ∈ v.entries, e.1 < n) (h : v.get id = some r) : id < n := by
  unfold VaultStore.get at h
  cases hfind : v.entries.find? (fun e => e.1 == id) with
  | none => rw [hfind] at h; simp at h
  | some a =>
      have h1 := List.find?_some hfind
      have h2 : a ∈ v.entries := List.mem_of_find?_eq_some hfind
      have h3 := hf a h2
      have h4 : a.1 = id := by simpa using h1
      omega

theorem commitIndexes_vault (s : ServiceState) (id : Nat) :
    (commitIndexes s id).vault = s.vault := by
  unfold commitIndexes
  cases h : s.vault.get id <;> simp

theorem inv_init (d : Nat) : Inv (initState d) := by
  refine ⟨?_, ?_, ?_, ?_⟩ <;> intro e he <;> simp [initState] at he

theorem inv_commitVault (s : ServiceState) (req : StoreReq) (hinv : Inv s) :
    Inv (commitVault s req).2 := by
  obtain ⟨hfresh, hidx, hled, hcat⟩ := hinv
  unfold commitVault Inv
  simp only []
  refine ⟨?_, ?_, ?_, ?_⟩
  · intro e he
    simp only [VaultStore.put, List.mem_cons] at he
    rcases he with he | he
    · subst he; omega
    · exact Nat.lt_trans (hfresh e he) (Nat.lt_succ_self _)
  · intro e he
    obtain ⟨r, hr⟩ := hidx e he
    have hlt := VaultStore.get_some_lt s.vault s.nextId e.id r hfresh hr
    exact ⟨r, by rw [VaultStore.get_put_ne _ _ _ _ (by omega)]; exact hr⟩
  · intro p hp
    obtain ⟨r, hr⟩ := hled p hp
    have hlt := VaultStore.get_some_lt s.vault s.nextId p.1 r hfresh hr
    exact ⟨r, by rw [VaultStore.get_put_ne _ _ _ _ (by omega)]; exact hr⟩
  · intro e he
    obtain ⟨r, hr, hm, ht⟩ := hcat e he
    have hlt := VaultStore.get_some_lt s.vault s.nextId e.id r hfresh hr
    exact ⟨r, by rw [VaultStore.get_put_ne _ _ _ _ (by omega)]; exact hr, hm, ht⟩

theorem inv_commitIndexes (s : ServiceState) (id : Nat) (hinv : Inv s) :
    Inv (commitIndexes s id) := by
  obtain ⟨hfresh, hidx, hled, hcat⟩ := hinv
  unfold commitIndexes
  cases hget : s.vault.get id with
  | none => exact ⟨hfresh, hidx, hled, hcat⟩
  | some r =>
      refine ⟨hfresh, ?_, ?_, ?_⟩
      · intro e he
        simp only [VectorIndex.insert, List.mem_cons] at he
        rcases he with he | he
        · subst he; exact ⟨r, hget⟩
        · exact hidx e he
      · intro p hp
        simp only [RecencyLedger.append, List.mem_cons] at hp
        rcases hp with hp | hp
        · subst hp; exact ⟨r, hget⟩
        · exact hled p hp
      · intro e he
        simp only [MetadataCatalog.index, List.mem_cons] at he
        rcases he with he | he
        · subst he; exact ⟨r, hget, rfl, rfl⟩
        · exact hcat e he

theorem reachable_inv (d : Nat) (s : ServiceState) (h : Reachable d s) : Inv s := by
  induction h with
  | refl => exact inv_init d
  | tail hsteps hstep ih =>
      cases hstep with
      | store1 req hdim => exact inv_commitVault _ req ih
      | store2 id hid => exact inv_commitIndexes _ id ih

theorem search_ok_iff (idx : VectorIndex) (sim : List ℚ → List ℚ → ℚ)
    (q : List ℚ) (limit : Int) (threshold : ℚ) (rs : List SearchHit) :
    idx.search sim q limit threshold = .ok rs ↔
      ¬limit ≤ 0 ∧ q.length = idx.dim ∧
      rs = (List.insertionSort HitOrder
        ((idx.entries.map (fun e =>
            SearchHit.mk e.id (sim q e.embedding) e.created_at)).filter
          (fun h => decide (threshold ≤ h.score)))).take limit.toNat := by
  unfold VectorIndex.search
  by_cases hl : limit ≤ 0
  · simp [hl]
  · by_cases hq : q.length ≠ idx.dim
    · simp [hl, hq]
    · simp only [if_neg hl, if_neg hq]
      push_neg at hq
      simp [hl, hq, eq_comm]

theorem recentEntries_ok_iff (l : RecencyLedger) (limit : Int) (es : List (Nat × Nat)) :
    l.recentEntries limit = .ok es ↔
      ¬limit ≤ 0 ∧ es = (List.insertionSort RecOrder l.entries).take limit.toNat := by
  unfold RecencyLedger.recentEntries
  by_cases hl : limit ≤ 0
  · simp [hl]
  · simp [hl, eq_comm]

/-!
## Claims
-/

/-- Claim C1: for every search over the VectorIndex, the returned
sequence of hits is sorted highest score first with ties broken by
earliest `created_at` (the `HitOrder` relation), and every returned score
is at least the supplied threshold. -/
theorem vectorIndex_search_ordered_and_thresholded (idx : VectorIndex)
    (sim : List ℚ → List ℚ → ℚ) (q : List ℚ) (limit : Int) (threshold : ℚ)
    (rs : List SearchHit) (hit : SearchHit)
    (h : idx.search sim q limit threshold = .ok rs) (hmem : hit ∈ rs) :
    List.Sorted HitOrder rs ∧ threshold ≤ hit.score := by
  obtain ⟨hl, hq, hrs⟩ := (search_ok_iff idx sim q limit threshold rs).1 h
  subst hrs
  constructor
  · exact List.Pairwise.sublist (List.take_sublist _ _)
      (List.sorted_insertionSort HitOrder _)
  · have h1 := List.take_subset _ _ hmem
    have h2 := (List.mem_insertionSort HitOrder).1 h1
    have h3 := (List.mem_filter.1 h2).2
    exact of_decide_eq_true h3

/-- Concrete run of the C1 theorem: a two-entry index searched with
threshold 0 yields a sorted result whose head scores 1. -/
theorem vectorIndex_search_ordered_and_thresholded_witness :
    List.Sorted HitOrder [⟨0, 1, 0⟩, ⟨1, 0, 1⟩] ∧ (0 : ℚ) ≤ 1 :=
  vectorIndex_search_ordered_and_thresholded exIdx exSim [1, 0] 5 0
    [⟨0, 1, 0⟩, ⟨1, 0, 1⟩] ⟨0, 1, 0⟩ (by decide) (by decide)

/-- Claim C2: a successful search returns at most `limit` results, and a
search with `limit <= 0` fails with `InvalidInput` instead of returning
results. -/
theorem vectorIndex_search_limit_bound (idx : VectorIndex)
    (sim : List ℚ → List ℚ → ℚ) (q : List ℚ) (limit : Int) (threshold : ℚ)
    (rs : List SearchHit) :
    (idx.search sim q limit threshold = .ok rs → (rs.length : ℤ) ≤ limit) ∧
    (limit ≤ 0 → idx.search sim q limit threshold = .error .InvalidInput) := by
  constructor
  · intro h
    obtain ⟨hl, hq, hrs⟩ := (search_ok_iff idx sim q limit threshold rs).1 h
    subst hrs
    have h1 := List.length_take_le limit.toNat
      (List.insertionSort HitOrder
        ((idx.entries.map (fun e =>
            SearchHit.mk e.id (sim q e.embedding) e.created_at)).filter
          (fun h => decide (threshold ≤ h.score))))
    omega
  · intro hl
    unfold VectorIndex.search
    rw [if_pos hl]

/-- Concrete run of the C2 theorem: a limit-5 search returns 2 results,
and a limit-0 search is rejected with `InvalidInput`. -/
theorem vectorIndex_search_limit_bound_witness :
    ((([⟨0, 1, 0⟩, ⟨1, 0, 1⟩] : List SearchHit).length : ℤ) ≤ 5) ∧
    exIdx.search exSim [1, 0] 0 0 = .error .InvalidInput :=
  ⟨(vectorIndex_search_limit_bound exIdx exSim [1, 0] 5 0
      [⟨0, 1, 0⟩, ⟨1, 0, 1⟩]).1 (by decide),
   (vectorIndex_search_limit_bound exIdx exSim [1, 0] 0 0 []).2 (by decide)⟩

/-- Claim C6: `recent(n)` returns at most `n` identifiers ordered most
recent first (non-increasing `created_at`), and a non-positive limit is
rejected with `InvalidInput`. -/
theorem recencyLedger_recent_spec (l : RecencyLedger) (limit : Int)
    (es : List (Nat × Nat)) :
    (limit ≤ 0 → l.recent limit = .error .InvalidInput) ∧
    (l.recentEntries limit = .ok es →
       l.recent limit = .ok (es.map Prod.fst) ∧
       List.Sorted RecOrder es ∧ (es.length : ℤ) ≤ limit) := by
  constructor
  · intro hl
    unfold RecencyLedger.recent RecencyLedger.recentEntries
    rw [if_pos hl]
    rfl
  · intro h
    obtain ⟨hl, hes⟩ := (recentEntries_ok_iff l limit es).1 h
    refine ⟨?_, ?_, ?_⟩
    · unfold RecencyLedger.recent
      rw [h]
      rfl
    · subst hes
      exact List.Pairwise.sublist (List.take_sublist _ _)
        (List.sorted_insertionSort RecOrder _)
    · subst hes
      have h1 := List.length_take_le limit.toNat (List.insertionSort RecOrder l.entries)
      omega

/-- Concrete run of the C6 theorem: three records stored at increasing
timestamps; `recent 2` returns the last two ids most recent first, and
`recent 0` is rejected. -/
theorem recencyLedger_recent_spec_witness :
    exLed.recent 0 = .error .InvalidInput ∧
    (exLed.recent 2 = .ok [2, 1] ∧
      List.Sorted RecOrder [(2, 2), (1, 1)] ∧
      (([(2, 2), (1, 1)] : List (Nat × Nat)).length : ℤ) ≤ 2) :=
  ⟨(recencyLedger_recent_spec exLed 0 []).1 (by decide),
   (recencyLedger_recent_spec exLed 2 [(2, 2), (1, 1)]).2 (by decide)⟩

/-- StoreMemory on a valid request: the returned id is the allocated one
and the final state is the two-phase commit. -/
theorem storeMemory_valid_eq (s : ServiceState) (req : StoreReq)
    (h : req.embedding.length = s.dim) :
    storeMemory s req = (.ok s.nextId, commitIndexes (commitVault s req).2 s.nextId) := by
  unfold storeMemory
  rw [if_neg (fun hn => hn h)]
  rfl

/-- Claim C3: storing a valid record and retrieving it by the returned id
yields a record with equal content and exactly the same embedding
dimension. -/
theorem storeMemory_get_roundTrip (s : ServiceState) (req : StoreReq)
    (h : req.embedding.length = s.dim) :
    (storeMemory s req).1 = .ok s.nextId ∧
    (getMemory (storeMemory s req).2 s.nextId).map Record.content = .ok req.content ∧
    (getMemory (storeMemory s req).2 s.nextId).map embeddingDim =
      .ok req.embedding.length := by
  rw [storeMemory_valid_eq s req h]
  have hget : (commitIndexes (commitVault s req).2 s.nextId).vault.get s.nextId =
      some ⟨s.nextId, req.content, req.embedding, req.metadata, req.tags, s.clock⟩ := by
    rw [commitIndexes_vault]
    exact VaultStore.get_put_self s.vault s.nextId _
  refine ⟨rfl, ?_, ?_⟩ <;> simp [getMemory, hget, embeddingDim, Except.map]

/-- Concrete run of the C3 theorem: store `exReq` on a fresh dimension-2
service; get of the returned id 0 gives back content "hello" and a
2-dimensional embedding. -/
theorem storeMemory_get_roundTrip_witness :
    (storeMemory (initState 2) exReq).1 = .ok 0 ∧
    (getMemory (storeMemory (initState 2) exReq).2 0).map Record.content = .ok "hello" ∧
    (getMemory (storeMemory (initState 2) exReq).2 0).map embeddingDim = .ok 2 :=
  storeMemory_get_roundTrip (initState 2) exReq (by decide)

/-- Claim C4: a StoreMemory request with the wrong embedding dimension is
rejected with `InvalidInput` before any mutation — the state (all four
structures) is returned unchanged — and on a fresh service a subsequent
get on any id fails with `NotFound`. -/
theorem storeMemory_wrong_dim_no_mutation (s : ServiceState) (req : StoreReq)
    (d id : Nat) (h : req.embedding.length ≠ s.dim) (hd : req.embedding.length ≠ d) :
    storeMemory s req = (.error .InvalidInput, s) ∧
    getMemory (storeMemory (initState d) req).2 id = .error .NotFound := by
  constructor
  · unfold storeMemory
    rw [if_pos h]
  · have h2 : storeMemory (initState d) req = (.error .InvalidInput, initState d) := by
      unfold storeMemory
      rw [if_pos]
      exact hd
    rw [h2]
    rfl

/-- Concrete run of the C4 theorem (spec scenario C): a 3-dimensional
store on a dimension-4 service is rejected, the state is unchanged, and
get of a guessed id 0 is `NotFound`. -/
theorem storeMemory_wrong_dim_no_mutation_witness :
    storeMemory (initState 4) exReq3 = (.error .InvalidInput, initState 4) ∧
    getMemory (storeMemory (initState 4) exReq3).2 0 = .error .NotFound :=
  storeMemory_wrong_dim_no_mutation (initState 4) exReq3 4 0 (by decide) (by decide)

/-- Claim C5: in every reachable service state, every record returned by
a filtered search satisfies all supplied filter pairs — each filter key
is present in the record's metadata with an equal value, and the reserved
key "tag" instead requires membership in the record's tag set. -/
theorem searchMemories_filter_correct (d : Nat) (s : ServiceState)
    (sim : List ℚ → List ℚ → ℚ) (q : List ℚ) (limit : Int) (threshold : ℚ)
    (filters : List (String × String)) (out : List (Record × ℚ))
    (p : Record × ℚ) (f : String × String)
    (hreach : Reachable d s)
    (hout : searchMemories s sim q limit threshold filters = .ok out)
    (hp : p ∈ out) (hf : f ∈ filters) :
    if f.1 = "tag" then f.2 ∈ p.1.tags
    else lookupMeta p.1.metadata f.1 = some f.2 := by
  unfold searchMemories at hout
  by_cases ht : threshold < -1 ∨ 1 < threshold
  · rw [if_pos ht] at hout
    exact absurd hout (by simp)
  · rw [if_neg ht] at hout
    cases hsr : s.vindex.search sim q limit threshold with
    | error e =>
        rw [hsr] at hout
        exact absurd hout (by simp)
    | ok hits =>
        rw [hsr] at hout
        simp only [Except.ok.injEq] at hout
        subst hout
        obtain ⟨h', hh', hsome⟩ := List.mem_filterMap.1 hp
        obtain ⟨hmemf, hmatch⟩ := List.mem_filter.1 hh'
        obtain ⟨r, hr, hpr⟩ := Option.map_eq_some'.1 hsome
        have hp1 : p.1 = r := by rw [← hpr]
        unfold MetadataCatalog.matches at hmatch
        cases hfind : s.catalog.entries.find? (fun e => e.id == h'.id) with
        | none =>
            rw [hfind] at hmatch
            have hfe : filters = [] := by simpa using hmatch
            subst hfe
            simp at hf
        | some e =>
            rw [hfind] at hmatch
            obtain ⟨_, _, _, hcat⟩ := reachable_inv d s hreach
            obtain ⟨rec, hrec, hm, htg⟩ := hcat e (List.mem_of_find?_eq_some hfind)
            have heid : e.id = h'.id := by simpa using List.find?_some hfind
            rw [heid, hr] at hrec
            have hrr : rec = r := (Option.some.inj hrec).symm
            have hall := List.all_eq_true.1 hmatch f hf
            by_cases hft : f.1 = "tag"
            · rw [if_pos hft]
              rw [hft] at hall
              have : f.2 ∈ e.tags := by simpa using hall
              rw [hp1, ← hrr, htg]
              exact this
            · rw [if_neg hft]
              have hbf : (f.1 == "tag") = false := by simpa using hft
              simp only [hbf, Bool.false_eq_true, if_false] at hall
              have : lookupMeta e.metadata f.1 = some f.2 := by simpa using hall
              rw [hp1, ← hrr, hm]
              exact this

/-- Concrete run of the C5 theorem: on the reachable state holding one
record with metadata user_id ↦ u1, a search filtered by that pair returns
only records satisfying it. -/
theorem searchMemories_filter_correct_witness :
    if ("user_id", "u1").1 = "tag" then ("user_id", "u1").2 ∈ exRec.tags
    else lookupMeta exRec.metadata ("user_id", "u1").1 = some ("user_id", "u1").2 :=
  searchMemories_filter_correct 2 exS2 exSim [1, 0] 5 0 [("user_id", "u1")]
    [(exRec, 1)] (exRec, 1) ("user_id", "u1")
    (Relation.ReflTransGen.tail
      (Relation.ReflTransGen.tail Relation.ReflTransGen.refl
        (Step.store1 (initState 2) exReq rfl))
      (Step.store2 exS1 0 (by decide)))
    (by decide) (by decide) (by decide)

/-- Claim C7: in every reachable state — including mid-store states where
the vault commit has happened but the derived-index commit is still
pending — every id appearing in VectorIndex search results or in
RecencyLedger recent results is retrievable from VaultStore: the
subsequent get succeeds. -/
theorem no_dangling_ids (d : Nat) (s : ServiceState)
    (sim : List ℚ → List ℚ → ℚ) (q : List ℚ) (limit limit2 : Int) (threshold : ℚ)
    (hits : List SearchHit) (hit : SearchHit) (ids : List Nat) (id : Nat)
    (hreach : Reachable d s)
    (hsearch : s.vindex.search sim q limit threshold = .ok hits)
    (hhit : hit ∈ hits)
    (hrecent : s.ledger.recent limit2 = .ok ids)
    (hid : id ∈ ids) :
    (getMemory s hit.id).isOk = true ∧ (getMemory s id).isOk = true := by
  obtain ⟨hfresh, hidx, hled, hcat⟩ := reachable_inv d s hreach
  constructor
  · obtain ⟨hl, hq, hrs⟩ := (search_ok_iff s.vindex sim q limit threshold hits).1 hsearch
    subst hrs
    have h1 := List.take_subset _ _ hhit
    have h2 := (List.mem_insertionSort HitOrder).1 h1
    have h3 := (List.mem_filter.1 h2).1
    obtain ⟨e, he, heq⟩ := List.mem_map.1 h3
    obtain ⟨r, hr⟩ := hidx e he
    have hid' : hit.id = e.id := by rw [← heq]
    simp [getMemory, hid', hr, Except.isOk, Except.toBool]
  · unfold RecencyLedger.recent at hrecent
    cases hre : s.ledger.recentEntries limit2 with
    | error e =>
        rw [hre] at hrecent
        exact absurd hrecent (by simp [Except.map])
    | ok es =>
        rw [hre] at hrecent
        simp only [Except.map, Except.ok.injEq] at hrecent
        subst hrecent
        obtain ⟨hl, hes⟩ := (recentEntries_ok_iff s.ledger limit2 es).1 hre
        subst hes
        obtain ⟨pe, hpe, hfst⟩ := List.mem_map.1 hid
        have h1 := List.take_subset _ _ hpe
        have h2 := (List.mem_insertionSort RecOrder).1 h1
        obtain ⟨r, hr⟩ := hled pe h2
        rw [← hfst]
        simp [getMemory, hr, Except.isOk, Except.toBool]

/-- Concrete run of the C7 theorem: after a two-phase store on a fresh
dimension-2 service, the id 0 returned by both a search and a recent
query is retrievable. -/
theorem no_dangling_ids_witness :
    (getMemory exS2 0).isOk = true ∧ (getMemory exS2 0).isOk = true :=
  no_dangling_ids 2 exS2 exSim [1, 0] 5 1 0 [⟨0, 1, 0⟩] ⟨0, 1, 0⟩ [0] 0
    (Relation.ReflTransGen.tail
      (Relation.ReflTransGen.tail Relation.ReflTransGen.refl
        (Step.store1 (initState 2) exReq rfl))
      (Step.store2 exS1 0 (by decide)))
    (by decide) (by decide) (by decide) (by decide)

/-- Claim C8: when the stub raises a gRPC error, `search_conversations`
and `get_recent_conversations` both return the empty list — the same
value a successful query with zero matches returns, so the two are
indistinguishable in the client's return value. -/
theorem client_rpc_error_empty
    (sstub : SearchMemoriesRequest → RpcOutcome SearchMemoriesResponse)
    (rstub : GetRecentMemoriesRequest → RpcOutcome GetRecentMemoriesResponse)
    (qe : List ℚ) (lim : Int) (thr : ℚ) (fil : Option (List (String × String)))
    (rlim : Int) (c1 d1 c2 d2 : String)
    (hs : sstub ⟨qe, lim, thr, orEmptyMap fil⟩ = .rpcError c1 d1)
    (hr : rstub ⟨rlim⟩ = .rpcError c2 d2) :
    search_conversations sstub qe lim thr fil = [] ∧
    get_recent_conversations rstub rlim = [] ∧
    search_conversations (fun _ => .ok ⟨[]⟩) qe lim thr fil = [] ∧
    get_recent_conversations (fun _ => .ok ⟨[]⟩) rlim = [] := by
  refine ⟨?_, ?_, ?_, ?_⟩
  · simp [search_conversations, hs]
  · simp [get_recent_conversations, hr]
  · simp [search_conversations]
  · simp [get_recent_conversations]

/-- Concrete run of the C8 theorem: against stubs that raise UNAVAILABLE,
both query methods return the empty list, exactly like an empty success
response. -/
theorem client_rpc_error_empty_witness :
    search_conversations exStubSearchErr [1, 0] 10 0 none = [] ∧
    get_recent_conversations exStubRecentErr 10 = [] ∧
    search_conversations (fun _ => .ok ⟨[]⟩) [1, 0] 10 0 none = [] ∧
    get_recent_conversations (fun _ => .ok ⟨[]⟩) 10 = [] :=
  client_rpc_error_empty exStubSearchErr exStubRecentErr [1, 0] 10 0 none 10
    "UNAVAILABLE" "connection refused" "UNAVAILABLE" "connection refused"
    (by decide) (by decide)

/-- Claim C9: `store_conversation` returns the response's `memory_id`
exactly when `success == true`; it returns `None` both when the response
has `success == false` and when the stub raises a gRPC error, so the two
failure modes are indistinguishable in the return value. -/
theorem store_conversation_result_cases
    (stub : StoreMemoryRequest → RpcOutcome StoreMemoryResponse)
    (content : String) (md : Option (List (String × String)))
    (tg : Option (List String)) (resp : StoreMemoryResponse) (c d : String) :
    (stub (buildStoreRequest content md tg) = .ok resp → resp.success = true →
       store_conversation stub content md tg = some resp.memory_id) ∧
    (stub (buildStoreRequest content md tg) = .ok resp → resp.success = false →
       store_conversation stub content md tg = none) ∧
    (stub (buildStoreRequest content md tg) = .rpcError c d →
       store_conversation stub content md tg = none) := by
  refine ⟨?_, ?_, ?_⟩
  · intro hok hsucc
    simp [store_conversation, hok, hsucc]
  · intro hok hsucc
    simp [store_conversation, hok, hsucc]
  · intro herr
    simp [store_conversation, herr]

/-- Concrete run of the C9 theorem: a success response yields its
memory_id; a `success == False` response and a raised gRPC error both
yield `None`. -/
theorem store_conversation_result_cases_witness :
    store_conversation exStubStoreOk "hi" none none = some "id-1" ∧
    store_conversation exStubStoreFail "hi" none none = none ∧
    store_conversation exStubStoreRaise "hi" none none = none :=
  ⟨(store_conversation_result_cases exStubStoreOk "hi" none none
      ⟨true, "id-1", "stored"⟩ "" "").1 (by decide) (by decide),
   (store_conversation_result_cases exStubStoreFail "hi" none none
      ⟨false, "", "vault unavailable"⟩ "" "").2.1 (by decide) (by decide),
   (store_conversation_result_cases exStubStoreRaise "hi" none none
      ⟨true, "", ""⟩ "INTERNAL" "boom").2.2 (by decide)⟩

/-- Claim C10: the request built by `store_conversation` carries an empty
metadata map when `metadata` is `None`, an empty tag list when `tags` is
`None`, and passes caller-supplied non-None values through unchanged. -/
theorem store_request_defaults (content : String) (m : List (String × String))
    (t : List String) (om : Option (List (String × String)))
    (ot : Option (List String)) :
    (buildStoreRequest content none ot).metadata = [] ∧
    (buildStoreRequest content om none).tags = [] ∧
    (buildStoreRequest content (some m) ot).metadata = m ∧
    (buildStoreRequest content om (some t)).tags = t := by
  refine ⟨rfl, rfl, ?_, ?_⟩
  · cases m <;> simp [buildStoreRequest, orEmptyMap]
  · cases t <;> simp [buildStoreRequest, orEmptyList]

end Identra
